import Mathlib

/-!
Shallow embedding of `src/strapi_migrate.py`: a single-threaded batch script
that paginates entries from a source Strapi API, looks each one up in a
destination API by a configurable match field, and creates or updates it,
accumulating one report row per processed entry which is written once at the
end of the run.

JSON values are modelled by `JValue`; Python dictionaries by association
lists with Python update semantics (`Dict.set`).  The network is modelled by
an environment `Env` mapping each request to a response; the code under
verification issues requests through it and logs them.  Python exceptions
(`raise_for_status`, `KeyError`, ...) are modelled by `Except Err`; an
`Except.error` result of the whole run means the process terminates with an
uncaught exception and the report file is never written (the CSV is written
only at the very end of `migrate_collection`).  The wall-clock timestamp
column of a report row is not modelled.  The unbounded `while True`
pagination loop is embedded with explicit fuel (`Err.outOfFuel`).
-/

namespace StrapiMigrate

/-- A JSON value, as the Python script sees it after `res.json()`:
`None`, strings, (integer) numbers, booleans, objects and arrays. -/
inductive JValue where
  | null : JValue
  | str (s : String) : JValue
  | num (n : Int) : JValue
  | bool (b : Bool) : JValue
  | obj (fields : List (String × JValue)) : JValue
  | arr (elems : List JValue) : JValue
deriving Repr

/-- A Python dictionary with string keys, in insertion order. -/
abbrev Dict := List (String × JValue)

/-- Python truthiness of a value: `None`, `""`, `0`, `False`, `{}`, `[]`
are falsy, everything else is truthy. -/
def JValue.truthy : JValue → Bool
  | .null => false
  | .str s => !(s == "")
  | .num n => !(n == 0)
  | .bool b => b
  | .obj fields => !fields.isEmpty
  | .arr elems => !elems.isEmpty

/-- `d[k]` as a partial lookup: `none` models a `KeyError`. -/
def Dict.get? (d : Dict) (k : String) : Option JValue :=
  (d.find? (fun p => p.1 == k)).map (fun p => p.2)

/-- `d.get(k)`: `None` when the key is absent. -/
def Dict.getd (d : Dict) (k : String) : JValue :=
  (Dict.get? d k).getD JValue.null

/-- `k in d` for a dictionary. -/
def Dict.hasKey (d : Dict) (k : String) : Bool :=
  d.any (fun p => p.1 == k)

/-- `d[k] = v`: replace the value at an existing key in place, else append. -/
def Dict.set : Dict → String → JValue → Dict
  | [], k, v => [(k, v)]
  | (k1, v1) :: rest, k, v =>
    if k1 == k then (k1, v) :: rest else (k1, v1) :: Dict.set rest k v

/-- A single-quote character, used by the Python `repr` of strings. -/
def squote : String := String.singleton (Char.ofNat 39)

mutual

/-- Python `repr` of a value (string contents are not escaped further). -/
def pyRepr : JValue → String
  | .null => "None"
  | .str s => squote ++ s ++ squote
  | .num n => toString n
  | .bool true => "True"
  | .bool false => "False"
  | .obj fields => "\x7b" ++ pyReprFields fields ++ "\x7d"
  | .arr elems => "[" ++ pyReprElems elems ++ "]"

/-- `repr` of the comma-separated fields of a dictionary. -/
def pyReprFields : List (String × JValue) → String
  | [] => ""
  | [p] => squote ++ p.1 ++ squote ++ ": " ++ pyRepr p.2
  | p :: q :: rest =>
    squote ++ p.1 ++ squote ++ ": " ++ pyRepr p.2 ++ ", " ++ pyReprFields (q :: rest)

/-- `repr` of the comma-separated elements of a list. -/
def pyReprElems : List JValue → String
  | [] => ""
  | [x] => pyRepr x
  | x :: y :: rest => pyRepr x ++ ", " ++ pyReprElems (y :: rest)

end

/-- Python `str` of a value, as interpolated by an f-string:
`str(None) = "None"`, a string stays itself, containers use `repr`. -/
def pyStr : JValue → String
  | .str s => s
  | v => pyRepr v

/-- A Python exception, as far as the script can raise one. -/
inductive Err where
  | httpError (status : Nat) (url : String) : Err
  | keyError (key : String) : Err
  | typeError : Err
  | attrError : Err
  | indexError : Err
  | outOfFuel : Err
deriving Repr

/-- `str(e)` of a caught exception, used for the `error` column of a report
row.  For a `requests.HTTPError` the message carries the status code and the
request URL (the human-readable reason phrase is not modelled). -/
def errMsg : Err → String
  | .httpError status url =>
    toString status ++
      (if status < 500 then " Client Error for url: " else " Server Error for url: ") ++ url
  | .keyError key => squote ++ key ++ squote
  | .typeError => "TypeError"
  | .attrError => "AttributeError"
  | .indexError => "IndexError"
  | .outOfFuel => "out of fuel"

/-- `requests.Response.raise_for_status` raises exactly for 4xx/5xx. -/
def raisesForStatus (status : Nat) : Bool :=
  400 ≤ status && status < 600

/-- An HTTP response: status code and parsed JSON body (a JSON object). -/
structure Response where
  status : Nat
  json : Dict
deriving Repr

/-- A network request issued by the script.  `getSource` carries the source
bearer token, `getDest` the destination one; `put`/`post` go to the
destination with a JSON body. -/
inductive Request where
  | getSource (url : String) : Request
  | getDest (url : String) : Request
  | put (url : String) (body : Dict) : Request
  | post (url : String) (body : Dict) : Request
deriving Repr

/-- True for the two kinds of plain GET (source pagination, destination
lookup), whose failures are never caught by the script. -/
def Request.isFetchGet : Request → Bool
  | .getSource _ => true
  | .getDest _ => true
  | _ => false

/-- True exactly for PUT requests. -/
def Request.isPut : Request → Bool
  | .put _ _ => true
  | _ => false

/-- True exactly for POST requests. -/
def Request.isPost : Request → Bool
  | .post _ _ => true
  | _ => false

/-- The network and configuration environment: the two API base URLs
(`SOURCE_API`, `DEST_API`) and the response the network gives to each
request. -/
structure Env where
  sourceApi : String
  destApi : String
  respond : Request → Response

/-- The source pagination URL for a given collection and page,
`{SOURCE_API}/api/{collection}?pagination[pageSize]=100&pagination[page]={page}&filters[publishedAt][$notNull]=true&populate=*`. -/
def sourceUrl (env : Env) (collection : String) (page : Nat) : String :=
  env.sourceApi ++ "/api/" ++ collection ++ "?pagination[pageSize]=100&pagination[page]=" ++
    toString page ++ "&filters[publishedAt][$notNull]=true&populate=*"

/-- The destination lookup URL,
`{DEST_API}/api/{collection}?filters[{match_field}][$eq]={match_value}`. -/
def destLookupUrl (env : Env) (collection matchField : String) (matchValue : JValue) : String :=
  env.destApi ++ "/api/" ++ collection ++ "?filters[" ++ matchField ++ "][$eq]=" ++
    pyStr matchValue

/-- The destination collection URL used by the create (POST) call. -/
def destCollectionUrl (env : Env) (collection : String) : String :=
  env.destApi ++ "/api/" ++ collection

/-- The destination entry URL used by the update (PUT) call,
`{DEST_API}/api/{collection}/{update_doc_id}` with the document id
interpolated through `str` (so `None` becomes the path segment `None`). -/
def destEntryUrl (env : Env) (collection : String) (updateDocId : JValue) : String :=
  env.destApi ++ "/api/" ++ collection ++ "/" ++ pyStr updateDocId

/-- `res.json().get("data", [])`. -/
def responseData (res : Response) : JValue :=
  (Dict.get? res.json "data").getD (JValue.arr [])

/-- Python iteration `for x in v`: a list yields its elements, a dictionary
its keys, a string its characters; other values raise `TypeError`. -/
def JValue.items : JValue → Except Err (List JValue)
  | .arr elems => .ok elems
  | .obj fields => .ok (fields.map (fun p => JValue.str p.1))
  | .str s => .ok (s.data.map (fun c => JValue.str (String.singleton c)))
  | _ => .error .typeError

/-- Python `v[0]`: first element of a list or string (`IndexError` when
empty), `KeyError` for a string-keyed dictionary, `TypeError` otherwise. -/
def JValue.index0 : JValue → Except Err JValue
  | .arr (x :: _) => .ok x
  | .arr [] => .error .indexError
  | .str s =>
    match s.data with
    | c :: _ => .ok (.str (String.singleton c))
    | [] => .error .indexError
  | .obj _ => .error (.keyError "0")
  | _ => .error .typeError

/-- `"attributes" in entry`: key test for a dictionary, membership for a
list, substring test for a string, `TypeError` otherwise. -/
def containsAttributesKey : JValue → Except Err Bool
  | .obj fields => .ok (Dict.hasKey fields "attributes")
  | .arr elems => .ok (elems.any (fun v => match v with
      | .str s => s == "attributes"
      | _ => false))
  | .str s => .ok (decide (1 < (s.splitOn "attributes").length))
  | _ => .error .typeError

/-- The body of the `for entry in data` loop of `fetch_entries` for one raw
record: unwrap `attributes` when present, skip (`ok none`) a dictionary
record whose attributes value is non-dict or empty (the skip log prints
`entry.get('id')`, fine on a dictionary), copy the source `id` into the
attributes (`KeyError` when the record has none), record the match-field
value under `"match_field"`, and skip when that value is falsy; otherwise
the record normalizes to an entry (`ok (some _)`).  A record that is
itself a list or string raises `AttributeError`: either at
`entry.get("attributes")` when it contains `"attributes"`, or at the skip
log's `entry.get('id')` otherwise. -/
def normalizeRecord (matchField : String) (record : JValue) : Except Err (Option Dict) :=
  match containsAttributesKey record with
  | .error e => .error e
  | .ok hasAttrs =>
    match record with
    | .obj entry =>
      let attributes : JValue :=
        if hasAttrs then Dict.getd entry "attributes" else .obj entry
      match attributes with
      | .obj attrs =>
        if attrs.isEmpty then .ok none
        else
          match Dict.get? entry "id" with
          | none => .error (.keyError "id")
          | some idVal =>
            let attrs1 := Dict.set attrs "id" idVal
            let matchValue := Dict.getd attrs1 matchField
            let attrs2 := Dict.set attrs1 "match_field" matchValue
            if matchValue.truthy then .ok (some attrs2) else .ok none
      | _ => .ok none
    | _ => .error .attrError

/-- Run `normalizeRecord` over the records of one page, appending the kept
entries to the accumulator in order. -/
def processPage (matchField : String) : List JValue → List Dict → Except Err (List Dict)
  | [], acc => .ok acc
  | r :: rs, acc =>
    match normalizeRecord matchField r with
    | .error e => .error e
    | .ok none => processPage matchField rs acc
    | .ok (some a) => processPage matchField rs (acc ++ [a])

/-- The `while True` pagination loop of `fetch_entries`, with fuel: request
the current page, `raise_for_status`, print the sample structure `data[0]`
whenever `data` is truthy (which can itself raise — `KeyError` on a truthy
dictionary), break when `data` is falsy, else iterate the records and
continue on the next page.  Returns the requests issued and either the
accumulated entries or the uncaught exception. -/
def fetchLoop (env : Env) (collection matchField : String) :
    Nat → Nat → List Dict → List Request × Except Err (List Dict)
  | 0, _, _ => ([], .error .outOfFuel)
  | fuel + 1, page, acc =>
    let url := sourceUrl env collection page
    let req := Request.getSource url
    let res := env.respond req
    if raisesForStatus res.status then
      ([req], .error (.httpError res.status url))
    else
      let dataV := responseData res
      if dataV.truthy then
        match dataV.index0 with
        | .error e => ([req], .error e)
        | .ok _ =>
          match dataV.items with
          | .error e => ([req], .error e)
          | .ok records =>
            match processPage matchField records acc with
            | .error e => ([req], .error e)
            | .ok acc2 =>
              let next := fetchLoop env collection matchField fuel (page + 1) acc2
              (req :: next.1, next.2)
      else
        ([req], .ok acc)

/-- `fetch_entries(collection, match_field)`: paginate from page 1. -/
def fetchEntries (env : Env) (fuel : Nat) (collection matchField : String) :
    List Request × Except Err (List Dict) :=
  fetchLoop env collection matchField fuel 1 []

/-- `data[0].get("attributes", {}).get("documentId")` — an `AttributeError`
when the `attributes` value exists but is not a dictionary. -/
def getAttrDocId (d : Dict) : Except Err JValue :=
  match (Dict.get? d "attributes").getD (JValue.obj []) with
  | .obj a => .ok (Dict.getd a "documentId")
  | _ => .error .attrError

/-- `find_existing_entry(collection, match_field, match_value)`: equality
lookup in the destination; on truthy `data` whose first element is a
dictionary, return `{"documentId": data[0].get("attributes", {}).get("documentId")}`,
else `None`.  `raise_for_status` errors propagate. -/
def findExistingEntry (env : Env) (collection matchField : String) (matchValue : JValue) :
    List Request × Except Err (Option Dict) :=
  let url := destLookupUrl env collection matchField matchValue
  let req := Request.getDest url
  let res := env.respond req
  if raisesForStatus res.status then
    ([req], .error (.httpError res.status url))
  else
    let dataV := responseData res
    if dataV.truthy then
      match dataV.index0 with
      | .error e => ([req], .error e)
      | .ok first =>
        match first with
        | .obj d =>
          match getAttrDocId d with
          | .error e => ([req], .error e)
          | .ok docId => ([req], .ok (some [("documentId", docId)]))
        | _ => ([req], .ok none)
    else
      ([req], .ok none)

/-- `sanitize_payload(entry)`: the payload is hardcoded to the two fields
`agendaFormatName` and `agendaFormatOrder`; a missing field raises
`KeyError` (the name field is evaluated first). -/
def sanitizePayload (entry : Dict) : Except Err Dict :=
  match Dict.get? entry "agendaFormatName" with
  | none => .error (.keyError "agendaFormatName")
  | some nameVal =>
    match Dict.get? entry "agendaFormatOrder" with
    | none => .error (.keyError "agendaFormatOrder")
    | some orderVal =>
      .ok [("agendaFormatName", nameVal), ("agendaFormatOrder", orderVal)]

/-- One row of the migration report (the wall-clock `timestamp` column is
not modelled). -/
structure Row where
  entry : JValue
  action : String
  error : String
  dryRun : Bool
deriving Repr

/-- The body of the per-entry loop of `migrate_collection`: sanitize the
payload and look up the destination match (both BEFORE the `try` block, so
their exceptions propagate and abort the run), then inside the `try` issue
the PUT (existing match) or POST (no match) unless `dry_run`, catching any
exception into a `"failed"` row.  Returns the requests issued and either
the report row appended for this entry or the uncaught exception. -/
def processEntry (env : Env) (collection matchField : String) (dryRun : Bool) (entry : Dict) :
    List Request × Except Err Row :=
  let matchValue := Dict.getd entry matchField
  match sanitizePayload entry with
  | .error e => ([], .error e)
  | .ok payload =>
    let postPayload : Dict := [("data", JValue.obj payload)]
    let lookup := findExistingEntry env collection matchField matchValue
    match lookup.2 with
    | .error e => (lookup.1, .error e)
    | .ok existingEntry =>
      let existingTruthy : Bool :=
        match existingEntry with
        | some ex => (JValue.obj ex).truthy
        | none => false
      let updateDocId : JValue :=
        match existingEntry with
        | some ex => if (JValue.obj ex).truthy then Dict.getd ex "documentId" else JValue.null
        | none => JValue.null
      if existingTruthy then
        if dryRun then
          (lookup.1, .ok ⟨matchValue, "updated", "", dryRun⟩)
        else
          let url := destEntryUrl env collection updateDocId
          let req := Request.put url postPayload
          let res := env.respond req
          if raisesForStatus res.status then
            (lookup.1 ++ [req], .ok ⟨matchValue, "failed", errMsg (.httpError res.status url), dryRun⟩)
          else
            (lookup.1 ++ [req], .ok ⟨matchValue, "updated", "", dryRun⟩)
      else
        if dryRun then
          (lookup.1, .ok ⟨matchValue, "created", "", dryRun⟩)
        else
          let url := destCollectionUrl env collection
          let req := Request.post url postPayload
          let res := env.respond req
          if raisesForStatus res.status then
            (lookup.1 ++ [req], .ok ⟨matchValue, "failed", errMsg (.httpError res.status url), dryRun⟩)
          else
            (lookup.1 ++ [req], .ok ⟨matchValue, "created", "", dryRun⟩)

/-- The per-entry loop of `migrate_collection` over the fetched entries, in
order: an uncaught exception of `processEntry` aborts the whole loop. -/
def migrateLoop (env : Env) (collection matchField : String) (dryRun : Bool) :
    List Dict → List Request × Except Err (List Row)
  | [] => ([], .ok [])
  | e :: es =>
    let r := processEntry env collection matchField dryRun e
    match r.2 with
    | .error err => (r.1, .error err)
    | .ok row =>
      let rest := migrateLoop env collection matchField dryRun es
      (r.1 ++ rest.1,
        match rest.2 with
        | .error err => .error err
        | .ok rows => .ok (row :: rows))

/-- `migrate_collection(collection, match_field, dry_run)`: fetch all
entries, process each, and (only when no uncaught exception occurred) the
`.ok` rows are the report written to `migration_report.csv` at the end. -/
def migrateCollection (env : Env) (fuel : Nat) (collection matchField : String) (dryRun : Bool) :
    List Request × Except Err (List Row) :=
  let f := fetchEntries env fuel collection matchField
  match f.2 with
  | .error e => (f.1, .error e)
  | .ok entries =>
    let m := migrateLoop env collection matchField dryRun entries
    (f.1 ++ m.1, m.2)

/-- The content of `migration_report.csv`: present exactly when the run
finished without an uncaught exception (the file is written once, at the
very end of `migrate_collection`). -/
def reportRows (env : Env) (fuel : Nat) (collection matchField : String) (dryRun : Bool) :
    Option (List Row) :=
  (migrateCollection env fuel collection matchField dryRun).2.toOption

/-- The URL of the request issued by the upsert executor for an entry with
payload `payload`, given the lookup result: PUT target for a truthy match,
POST target otherwise. -/
def upsertUrl (env : Env) (collection : String) : Option Dict → String
  | some ex =>
    if (JValue.obj ex).truthy then destEntryUrl env collection (Dict.getd ex "documentId")
    else destCollectionUrl env collection
  | none => destCollectionUrl env collection

/-- The request issued by the upsert executor for an entry with payload
`payload`, given the lookup result. -/
def upsertRequest (env : Env) (collection : String) (payload : Dict) (exOpt : Option Dict) :
    Request :=
  match exOpt with
  | some ex =>
    if (JValue.obj ex).truthy then
      Request.put (destEntryUrl env collection (Dict.getd ex "documentId"))
        [("data", JValue.obj payload)]
    else
      Request.post (destCollectionUrl env collection) [("data", JValue.obj payload)]
  | none => Request.post (destCollectionUrl env collection) [("data", JValue.obj payload)]

/-- The action a report row records for an entry, as a function of the
lookup outcome: `"updated"` on a match, `"created"` on none. -/
def prospectiveAction : Option Dict → String
  | some _ => "updated"
  | none => "created"

/-! Concrete test fixtures, used by the witness theorems below: a tiny
source collection `c` with match field `m`, and environments whose network
behaviour is fixed per scenario.  `wEnv p1 lk up` answers the page-1
pagination URL with `p1`, any later page with an empty page, any
destination lookup with `lk`, and any PUT/POST with `up`. -/

/-- The page-1 source URL of collection `c` for the fixture APIs. -/
def wPage1Url : String :=
  "http://src/api/c?pagination[pageSize]=100&pagination[page]=1&filters[publishedAt][$notNull]=true&populate=*"

/-- Response with an empty `data` list (also the no-match lookup answer). -/
def respEmptyData : Response := ⟨200, [("data", JValue.arr [])]⟩

/-- Fixture environment builder. -/
def wEnv (p1 lookupRes upsertRes : Response) : Env :=
  { sourceApi := "http://src", destApi := "http://dst",
    respond := fun r =>
      match r with
      | .getSource u => if u == wPage1Url then p1 else respEmptyData
      | .getDest _ => lookupRes
      | .put _ _ => upsertRes
      | .post _ _ => upsertRes }

/-- Raw source record A, Strapi v4 shaped. -/
def recA : JValue :=
  .obj [("id", .num 1),
        ("attributes", .obj [("agendaFormatName", .str "Keynote"),
                             ("agendaFormatOrder", .num 1),
                             ("m", .str "A")])]

/-- Raw source record B. -/
def recB : JValue :=
  .obj [("id", .num 2),
        ("attributes", .obj [("agendaFormatName", .str "Panel"),
                             ("agendaFormatOrder", .num 2),
                             ("m", .str "B")])]

/-- A normalized entry as the per-entry loop sees it. -/
def entryA : Dict :=
  [("agendaFormatName", .str "Keynote"), ("agendaFormatOrder", .num 1), ("m", .str "A")]

/-- A second normalized entry. -/
def entryB : Dict :=
  [("agendaFormatName", .str "Panel"), ("agendaFormatOrder", .num 2), ("m", .str "B")]

/-- The sanitized payload of `entryA`. -/
def payloadA : Dict :=
  [("agendaFormatName", .str "Keynote"), ("agendaFormatOrder", .num 1)]

/-- A source page containing the given records. -/
def respPage (records : List JValue) : Response := ⟨200, [("data", JValue.arr records)]⟩

/-- Lookup answer: one match whose attributes carry `documentId` `doc123`. -/
def respMatchDoc : Response :=
  ⟨200, [("data", JValue.arr [.obj [("id", .num 9),
                                    ("attributes", .obj [("documentId", .str "doc123")])]])]⟩

/-- Lookup answer: one match that is a dictionary with no
`attributes.documentId` (Strapi v5 shape). -/
def respMatchNoDocId : Response :=
  ⟨200, [("data", JValue.arr [.obj [("id", .num 9)]])]⟩

/-- A bare 200 response. -/
def resp200 : Response := ⟨200, []⟩

/-- A bare 500 response. -/
def resp500 : Response := ⟨500, []⟩

/-- Environment of the happy-path scenario: two records on page 1, no
destination match, all mutations succeed. -/
def envHappy : Env := wEnv (respPage [recA, recB]) respEmptyData resp200

/-- Environment where the destination lookup has a match `doc123`. -/
def envUpd : Env := wEnv (respPage [recA]) respMatchDoc resp200

/-- Entry A as normalized by `fetch_entries` (with `id` and `match_field`
copied in). -/
def entryAFull : Dict :=
  [("agendaFormatName", .str "Keynote"), ("agendaFormatOrder", .num 1), ("m", .str "A"),
   ("id", .num 1), ("match_field", .str "A")]

/-- Entry B as normalized by `fetch_entries`. -/
def entryBFull : Dict :=
  [("agendaFormatName", .str "Panel"), ("agendaFormatOrder", .num 2), ("m", .str "B"),
   ("id", .num 2), ("match_field", .str "B")]

/-- The response the environment gives to the pagination request for a
given page. -/
def pageResponse (env : Env) (collection : String) (page : Nat) : Response :=
  env.respond (Request.getSource (sourceUrl env collection page))

/-- Environment whose very first pagination request answers 500. -/
def envFetch500 : Env := wEnv resp500 respEmptyData resp200

/-- Environment whose destination lookups answer 500. -/
def envLookup500 : Env := wEnv (respPage [recA, recB]) resp500 resp200

/-- Environment whose PUT/POST calls answer 500 (lookups find no match). -/
def envPost500 : Env := wEnv (respPage [recA, recB]) respEmptyData resp500

/-- Environment whose lookup result has no `attributes.documentId`. -/
def envNoDocId : Env := wEnv (respPage [recA]) respMatchNoDocId resp200

/-- A raw record whose attributes lack `agendaFormatOrder`. -/
def recNoOrder : JValue :=
  .obj [("id", .num 3),
        ("attributes", .obj [("agendaFormatName", .str "X"), ("m", .str "C")])]

/-- `recNoOrder` as normalized by `fetch_entries`. -/
def entryNoOrder : Dict :=
  [("agendaFormatName", .str "X"), ("m", .str "C"), ("id", .num 3), ("match_field", .str "C")]

/-- Environment whose only source record lacks `agendaFormatOrder`. -/
def envKeyErr : Env := wEnv (respPage [recNoOrder]) respEmptyData resp200

/-- A 304 Not Modified lookup answer: non-2xx, yet `raise_for_status` does
not raise for it. -/
def respNotModified : Response := ⟨304, [("data", JValue.arr [])]⟩

/-- Environment whose destination lookups answer 304. -/
def envLookup304 : Env := wEnv (respPage [recA]) respNotModified resp200

/-- `isOk` of an exceptional result. -/
@[simp] lemma isOk_error {α : Type} (err : Err) : (Except.error err : Except Err α).isOk = false :=
  rfl

/-- `isOk` of a successful result. -/
@[simp] lemma isOk_ok {α : Type} (a : α) : (Except.ok a : Except Err α).isOk = true :=
  rfl

/-- The lookup request of `find_existing_entry` is the single equality
filter GET against the destination, whatever the outcome. -/
lemma findExistingEntry_requests (env : Env) (c mf : String) (mv : JValue) :
    (findExistingEntry env c mf mv).1 = [Request.getDest (destLookupUrl env c mf mv)] := by
  simp only [findExistingEntry]
  repeat first | rfl | split

/-- A successful match result of `find_existing_entry` is always the
single-key dictionary `{"documentId": …}` (hence truthy in Python). -/
lemma findExistingEntry_ok_some (env : Env) (c mf : String) (mv : JValue) (ex : Dict)
    (h : (findExistingEntry env c mf mv).2 = .ok (some ex)) :
    ∃ d, ex = [("documentId", d)] := by
  simp only [findExistingEntry] at h
  split at h
  · simp at h
  · split at h
    · split at h
      · simp at h
      · split at h
        · split at h
          · simp at h
          · simp at h
            exact ⟨_, h.symm⟩
        · simp at h
    · simp at h

/-- A successful `migrate_collection` inner loop produces exactly one
report row per entry. -/
lemma migrateLoop_ok_length (env : Env) (c mf : String) (d : Bool) (es : List Dict) :
    ∀ rows, (migrateLoop env c mf d es).2 = .ok rows → rows.length = es.length := by
  induction es with
  | nil =>
    intro rows h
    simp only [migrateLoop] at h
    cases h
    rfl
  | cons e es ih =>
    intro rows h
    simp only [migrateLoop] at h
    split at h
    · simp at h
    · simp only at h
      split at h
      · simp at h
      · next rows2 heq =>
        cases h
        simp [ih rows2 heq]

/-- C4: for every run that reaches the report-writing step, the report
contains exactly one row per fetched entry — the report row count equals
the fetched-entry count, one row per entry whether its upsert succeeded or
failed. -/
theorem C4_one_row_per_fetched_entry (env : Env) (fuel : Nat) (c mf : String) (d : Bool)
    (entries : List Dict) (rows : List Row)
    (hfetch : (fetchEntries env fuel c mf).2 = .ok entries)
    (hrun : (migrateCollection env fuel c mf d).2 = .ok rows) :
    rows.length = entries.length := by
  simp only [migrateCollection] at hrun
  rw [hfetch] at hrun
  simp only at hrun
  exact migrateLoop_ok_length env c mf d entries rows hrun

/-- Witness for C4: the happy-path run fetches two entries and writes a
two-row report. -/
theorem C4_one_row_per_fetched_entry_witness :
    ((fetchEntries envHappy 5 "c" "m").2 = .ok [entryAFull, entryBFull]) ∧
    ((migrateCollection envHappy 5 "c" "m" false).2 =
      .ok [⟨.str "A", "created", "", false⟩, ⟨.str "B", "created", "", false⟩]) ∧
    ([(⟨.str "A", "created", "", false⟩ : Row), ⟨.str "B", "created", "", false⟩].length =
      [entryAFull, entryBFull].length) :=
  ⟨rfl, rfl, C4_one_row_per_fetched_entry envHappy 5 "c" "m" false _ _ rfl rfl⟩

/-- C3: for every processed entry (with dry run off), a destination match
makes the executor issue exactly one update — a PUT to
`{collection}/{documentId}` — and no create, while no match makes it issue
exactly one create — a POST to `{collection}` — and no update. -/
theorem C3_match_updates_no_match_creates (env : Env) (c mf : String) (e : Dict)
    (payload : Dict) (exOpt : Option Dict)
    (hsan : sanitizePayload e = .ok payload)
    (hlook : (findExistingEntry env c mf (Dict.getd e mf)).2 = .ok exOpt) :
    (∀ ex, exOpt = some ex →
      (processEntry env c mf false e).1.filter Request.isPut =
        [Request.put (destEntryUrl env c (Dict.getd ex "documentId"))
          [("data", JValue.obj payload)]] ∧
      (processEntry env c mf false e).1.filter Request.isPost = []) ∧
    (exOpt = none →
      (processEntry env c mf false e).1.filter Request.isPost =
        [Request.post (destCollectionUrl env c) [("data", JValue.obj payload)]] ∧
      (processEntry env c mf false e).1.filter Request.isPut = []) := by
  constructor
  · intro ex hex
    subst hex
    obtain ⟨d0, hd0⟩ := findExistingEntry_ok_some env c mf (Dict.getd e mf) ex hlook
    subst hd0
    simp only [processEntry, hsan, hlook]
    rw [findExistingEntry_requests]
    repeat' split
    all_goals try exact ⟨rfl, rfl⟩
    all_goals simp_all [JValue.truthy]
  · intro hex
    subst hex
    simp only [processEntry, hsan, hlook]
    rw [findExistingEntry_requests]
    repeat' split
    all_goals try exact ⟨rfl, rfl⟩
    all_goals simp_all

/-- Witness for C3: with a `doc123` match the executor PUTs exactly once
and never POSTs. -/
theorem C3_match_updates_no_match_creates_witness :
    (sanitizePayload entryA = .ok payloadA) ∧
    ((findExistingEntry envUpd "c" "m" (Dict.getd entryA "m")).2 =
      .ok (some [("documentId", .str "doc123")])) ∧
    ((processEntry envUpd "c" "m" false entryA).1.filter Request.isPut =
      [Request.put (destEntryUrl envUpd "c" (.str "doc123")) [("data", JValue.obj payloadA)]]) ∧
    ((processEntry envUpd "c" "m" false entryA).1.filter Request.isPost = []) := by
  have h := (C3_match_updates_no_match_creates envUpd "c" "m" entryA payloadA
    (some [("documentId", .str "doc123")]) rfl rfl).1 [("documentId", .str "doc123")] rfl
  exact ⟨rfl, rfl, h.1, h.2⟩

/-- In dry-run mode the per-entry executor only ever issues the lookup GET:
no PUT and no POST appears among its requests. -/
lemma processEntry_dry_requests (env : Env) (c mf : String) (e : Dict) :
    ∀ req ∈ (processEntry env c mf true e).1, req.isPut = false ∧ req.isPost = false := by
  intro req hreq
  simp only [processEntry] at hreq
  repeat' split at hreq
  all_goals first
    | exact absurd trivial (by assumption)
    | (rw [findExistingEntry_requests] at hreq;
       simp only [List.mem_singleton] at hreq;
       subst hreq;
       exact ⟨rfl, rfl⟩)
    | simp at hreq

/-- In dry-run mode the per-entry executor, when the payload sanitizes and
the lookup answers, records the prospective action: `"updated"` on a match,
`"created"` on none, with an empty error. -/
lemma processEntry_dry_row (env : Env) (c mf : String) (e : Dict) (payload : Dict)
    (exOpt : Option Dict)
    (hsan : sanitizePayload e = .ok payload)
    (hlook : (findExistingEntry env c mf (Dict.getd e mf)).2 = .ok exOpt) :
    (processEntry env c mf true e).2 =
      .ok ⟨Dict.getd e mf, prospectiveAction exOpt, "", true⟩ := by
  cases exOpt with
  | none =>
    simp only [processEntry, hsan, hlook, prospectiveAction]
    repeat' split
    all_goals simp_all
  | some ex =>
    obtain ⟨d0, hd0⟩ := findExistingEntry_ok_some env c mf (Dict.getd e mf) ex hlook
    subst hd0
    simp only [processEntry, hsan, hlook, prospectiveAction]
    repeat' split
    all_goals simp_all [JValue.truthy]

/-- Every request issued by the pagination loop is a source GET. -/
lemma fetchLoop_requests_getSource (env : Env) (c mf : String) :
    ∀ fuel page acc req, req ∈ (fetchLoop env c mf fuel page acc).1 →
      ∃ u, req = Request.getSource u := by
  intro fuel
  induction fuel with
  | zero =>
    intro page acc req hreq
    simp [fetchLoop] at hreq
  | succ fuel ih =>
    intro page acc req hreq
    simp only [fetchLoop] at hreq
    repeat' split at hreq
    all_goals simp only [List.mem_singleton, List.mem_cons, List.not_mem_nil,
      or_false] at hreq
    all_goals first
      | exact ⟨_, hreq⟩
      | (rcases hreq with hreq | hreq
         exacts [⟨_, hreq⟩, ih _ _ req hreq])

/-- In dry-run mode the whole per-entry loop issues no PUT and no POST. -/
lemma migrateLoop_dry_requests (env : Env) (c mf : String) :
    ∀ es req, req ∈ (migrateLoop env c mf true es).1 →
      req.isPut = false ∧ req.isPost = false := by
  intro es
  induction es with
  | nil =>
    intro req hreq
    simp [migrateLoop] at hreq
  | cons e es ih =>
    intro req hreq
    simp only [migrateLoop] at hreq
    split at hreq
    · exact processEntry_dry_requests env c mf e req hreq
    · simp only [List.mem_append] at hreq
      rcases hreq with hreq | hreq
      · exact processEntry_dry_requests env c mf e req hreq
      · exact ih req hreq

/-- C5: in dry-run mode no PUT and no POST is ever issued, and each entry
whose payload sanitizes and whose lookup answers still gets a report row
carrying the prospective action — `"updated"` when a destination match
exists, `"created"` when none does. -/
theorem C5_dry_run_no_mutation_but_prospective_row (env : Env) (fuel : Nat) (c mf : String) :
    (∀ req ∈ (migrateCollection env fuel c mf true).1,
      req.isPut = false ∧ req.isPost = false) ∧
    (∀ e payload exOpt, sanitizePayload e = .ok payload →
      (findExistingEntry env c mf (Dict.getd e mf)).2 = .ok exOpt →
      (processEntry env c mf true e).2 =
        .ok ⟨Dict.getd e mf, prospectiveAction exOpt, "", true⟩) := by
  constructor
  · intro req hreq
    simp only [migrateCollection] at hreq
    split at hreq
    · obtain ⟨u, hu⟩ := fetchLoop_requests_getSource env c mf fuel 1 [] req hreq
      subst hu
      exact ⟨rfl, rfl⟩
    · simp only [List.mem_append] at hreq
      rcases hreq with hreq | hreq
      · obtain ⟨u, hu⟩ := fetchLoop_requests_getSource env c mf fuel 1 [] req hreq
        subst hu
        exact ⟨rfl, rfl⟩
      · exact migrateLoop_dry_requests env c mf _ req hreq
  · intro e payload exOpt hsan hlook
    exact processEntry_dry_row env c mf e payload exOpt hsan hlook

/-- Witness for C5: a dry run against a matching destination records the
prospective `"updated"` action, and the requests it issues are mutation
free. -/
theorem C5_dry_run_no_mutation_but_prospective_row_witness :
    ((processEntry envUpd "c" "m" true entryA).2 = .ok ⟨.str "A", "updated", "", true⟩) ∧
    ((Request.getSource wPage1Url).isPut = false ∧
      (Request.getSource wPage1Url).isPost = false) := by
  have h := C5_dry_run_no_mutation_but_prospective_row envUpd 5 "c" "m"
  refine ⟨?_, h.1 _ (List.Mem.head _)⟩
  exact h.2 entryA payloadA (some [("documentId", .str "doc123")]) rfl rfl

/-- A report row produced by the per-entry executor in dry-run mode always
carries action `"created"` or `"updated"` and an empty error. -/
lemma processEntry_dry_ok_action (env : Env) (c mf : String) (e : Dict) (row : Row)
    (h : (processEntry env c mf true e).2 = .ok row) :
    (row.action = "created" ∨ row.action = "updated") ∧ row.error = "" := by
  simp only [processEntry] at h
  repeat' split at h
  all_goals simp_all
  all_goals (cases h; simp)

/-- All rows of a successful dry-run per-entry loop carry action
`"created"` or `"updated"` and an empty error. -/
lemma migrateLoop_dry_rows (env : Env) (c mf : String) :
    ∀ es rows, (migrateLoop env c mf true es).2 = .ok rows →
      ∀ row ∈ rows, (row.action = "created" ∨ row.action = "updated") ∧ row.error = "" := by
  intro es
  induction es with
  | nil =>
    intro rows h row hrow
    simp only [migrateLoop] at h
    cases h
    simp at hrow
  | cons e es ih =>
    intro rows h row hrow
    simp only [migrateLoop] at h
    split at h
    · simp at h
    · next row0 heq0 =>
      simp only at h
      split at h
      · simp at h
      · next rows2 heq2 =>
        cases h
        rcases List.mem_cons.mp hrow with hrow | hrow
        · subst hrow
          exact processEntry_dry_ok_action env c mf e row heq0
        · exact ih rows2 heq2 row hrow

/-- C10: in a dry run, every row of the report has action `"created"` or
`"updated"` and an empty error — the `"failed"` branch is unreachable. -/
theorem C10_dry_run_failed_branch_unreachable (env : Env) (fuel : Nat) (c mf : String)
    (rows : List Row) (row : Row)
    (hrun : (migrateCollection env fuel c mf true).2 = .ok rows)
    (hmem : row ∈ rows) :
    row.action ≠ "failed" ∧ (row.action = "created" ∨ row.action = "updated") ∧
      row.error = "" := by
  simp only [migrateCollection] at hrun
  split at hrun
  · simp at hrun
  · simp only at hrun
    have h := migrateLoop_dry_rows env c mf _ rows hrun row hmem
    refine ⟨?_, h⟩
    rcases h.1 with hac | hac <;> rw [hac] <;> decide

/-- Witness for C10: the dry happy-path run writes only `"created"` rows
with empty errors. -/
theorem C10_dry_run_failed_branch_unreachable_witness :
    ((migrateCollection envHappy 5 "c" "m" true).2 =
      .ok [⟨.str "A", "created", "", true⟩, ⟨.str "B", "created", "", true⟩]) ∧
    ((⟨.str "A", "created", "", true⟩ : Row).action ≠ "failed" ∧
      ((⟨.str "A", "created", "", true⟩ : Row).action = "created" ∨
        (⟨.str "A", "created", "", true⟩ : Row).action = "updated") ∧
      (⟨.str "A", "created", "", true⟩ : Row).error = "") :=
  ⟨rfl, C10_dry_run_failed_branch_unreachable envHappy 5 "c" "m" _ _ rfl (List.Mem.head _)⟩

/-- If any pagination request received a `raise_for_status` status, the
fetch phase ends in an uncaught exception. -/
lemma fetchLoop_bad_status (env : Env) (c mf : String) :
    ∀ fuel page acc req, req ∈ (fetchLoop env c mf fuel page acc).1 →
      raisesForStatus (env.respond req).status = true →
      (fetchLoop env c mf fuel page acc).2.isOk = false := by
  intro fuel
  induction fuel with
  | zero =>
    intro page acc req h hb
    simp [fetchLoop] at h
  | succ fuel ih =>
    intro page acc req h hb
    cases hra : raisesForStatus (env.respond (Request.getSource (sourceUrl env c page))).status
    case true =>
      simp [fetchLoop, hra]
    case false =>
      cases hd : (responseData (env.respond (Request.getSource (sourceUrl env c page)))).truthy
      case false =>
        simp only [fetchLoop, hra, hd] at h
        simp only [Bool.false_eq_true, if_false, List.mem_singleton] at h
        subst h
        rw [hb] at hra
        cases hra
      case true =>
        cases hsam : (responseData (env.respond (Request.getSource (sourceUrl env c page)))).index0
        case error err =>
          simp [fetchLoop, hra, hd, hsam]
        case ok sample =>
          cases hi : (responseData (env.respond (Request.getSource (sourceUrl env c page)))).items
          case error err =>
            simp [fetchLoop, hra, hd, hsam, hi]
          case ok records =>
            cases hp : processPage mf records acc
            case error err =>
              simp [fetchLoop, hra, hd, hsam, hi, hp]
            case ok acc2 =>
              simp only [fetchLoop, hra, hd, hsam, hi, hp] at h ⊢
              simp only [Bool.false_eq_true, if_false, if_true, List.mem_cons] at h ⊢
              rcases h with h | h
              · subst h
                rw [hb] at hra
                cases hra
              · exact ih (page + 1) acc2 req h hb

/-- A lookup that returned a result saw a non-raising status on its GET. -/
lemma findExistingEntry_ok_status (env : Env) (c mf : String) (mv : JValue)
    (exOpt : Option Dict)
    (h : (findExistingEntry env c mf mv).2 = .ok exOpt) :
    raisesForStatus (env.respond (Request.getDest (destLookupUrl env c mf mv))).status =
      false := by
  cases hra : raisesForStatus (env.respond (Request.getDest (destLookupUrl env c mf mv))).status
  case false => rfl
  case true =>
    exfalso
    simp [findExistingEntry, hra] at h

/-- If the per-entry executor issued a plain GET that received a
`raise_for_status` status, the entry ends in an uncaught exception. -/
lemma processEntry_bad_get (env : Env) (c mf : String) (d : Bool) (e : Dict) (req : Request)
    (h : req ∈ (processEntry env c mf d e).1)
    (hget : req.isFetchGet = true)
    (hb : raisesForStatus (env.respond req).status = true) :
    (processEntry env c mf d e).2.isOk = false := by
  cases hs : sanitizePayload e
  case error err =>
    simp [processEntry, hs]
  case ok payload =>
    cases hlr : (findExistingEntry env c mf (Dict.getd e mf)).2
    case error err =>
      simp [processEntry, hs, hlr]
    case ok exOpt =>
      exfalso
      have hstat := findExistingEntry_ok_status env c mf (Dict.getd e mf) exOpt hlr
      simp only [processEntry, hs, hlr] at h
      repeat' split at h
      all_goals
        rw [findExistingEntry_requests] at h
      all_goals
        simp only [List.mem_append, List.mem_singleton, List.mem_cons, List.not_mem_nil,
          or_false] at h
      all_goals first
        | (subst h
           rw [hstat] at hb
           cases hb)
        | (rcases h with h | h <;>
            (subst h
             first
               | (rw [hstat] at hb; cases hb)
               | simp [Request.isFetchGet] at hget))

/-- If the per-entry loop issued a plain GET that received a
`raise_for_status` status, the loop ends in an uncaught exception. -/
lemma migrateLoop_bad_get (env : Env) (c mf : String) (d : Bool) :
    ∀ es req, req ∈ (migrateLoop env c mf d es).1 →
      req.isFetchGet = true →
      raisesForStatus (env.respond req).status = true →
      (migrateLoop env c mf d es).2.isOk = false := by
  intro es
  induction es with
  | nil =>
    intro req h hget hb
    simp [migrateLoop] at h
  | cons e es ih =>
    intro req h hget hb
    cases hpe : (processEntry env c mf d e).2
    case error err =>
      simp [migrateLoop, hpe]
    case ok row =>
      simp only [migrateLoop, hpe] at h ⊢
      simp only [List.mem_append] at h
      rcases h with h | h
      · have := processEntry_bad_get env c mf d e req h hget hb
        rw [hpe] at this
        simp at this
      · have hrest := ih req h hget hb
        cases hr2 : (migrateLoop env c mf d es).2
        case error err => simp [hr2]
        case ok rows2 =>
          rw [hr2] at hrest
          simp at hrest

/-- Counterexample to C2 as stated: a 304 answer to the destination lookup
is not 2xx, yet `raise_for_status` does not raise for it — the run carries
on with that answer (treating it as no match), completes, and writes the
report, contrary to the claim that every non-2xx response terminates the
process with no report. -/
theorem C2_counterexample_304_lookup_does_not_abort :
    ((envLookup304.respond (Request.getDest
        (destLookupUrl envLookup304 "c" "m" (.str "A")))).status = 304) ∧
    (¬(200 ≤ 304 ∧ 304 < 300)) ∧
    (raisesForStatus 304 = false) ∧
    ((migrateCollection envLookup304 5 "c" "m" false).2 =
      .ok [⟨.str "A", "created", "", false⟩]) ∧
    (reportRows envLookup304 5 "c" "m" false = some [⟨.str "A", "created", "", false⟩]) :=
  ⟨rfl, by decide, rfl, rfl, rfl⟩

/-- C2 (amended): a 4xx or 5xx response — exactly the statuses
`raise_for_status` raises for — to any source-pagination or
destination-lookup GET makes the whole run end in an uncaught exception,
and then no report file — not even a partial one — is written.  (Other
non-2xx statuses, such as 304, do not raise, as the counterexample
shows.) -/
theorem C2_fetch_phase_errors_abort_without_report (env : Env) (fuel : Nat) (c mf : String)
    (d : Bool) (req : Request)
    (hmem : req ∈ (migrateCollection env fuel c mf d).1)
    (hget : req.isFetchGet = true)
    (hbad : raisesForStatus (env.respond req).status = true) :
    (migrateCollection env fuel c mf d).2.isOk = false ∧
      reportRows env fuel c mf d = none := by
  have hok : (migrateCollection env fuel c mf d).2.isOk = false := by
    cases hf : (fetchEntries env fuel c mf).2
    case error err =>
      simp [migrateCollection, hf]
    case ok entries =>
      simp only [migrateCollection, hf] at hmem ⊢
      simp only [List.mem_append] at hmem
      rcases hmem with hm | hm
      · exfalso
        have := fetchLoop_bad_status env c mf fuel 1 [] req hm hbad
        rw [show (fetchLoop env c mf fuel 1 []).2 = (fetchEntries env fuel c mf).2 from rfl,
          hf] at this
        simp at this
      · exact migrateLoop_bad_get env c mf d entries req hm hget hbad
  refine ⟨hok, ?_⟩
  unfold reportRows
  cases hcase : (migrateCollection env fuel c mf d).2
  case error err => rfl
  case ok rows =>
    rw [hcase] at hok
    simp at hok

/-- Witness for C2: a 500 on the very first pagination request aborts the
run with no report. -/
theorem C2_fetch_phase_errors_abort_without_report_witness :
    (Request.getSource wPage1Url ∈ (migrateCollection envFetch500 5 "c" "m" false).1) ∧
    ((Request.getSource wPage1Url).isFetchGet = true) ∧
    (raisesForStatus (envFetch500.respond (Request.getSource wPage1Url)).status = true) ∧
    ((migrateCollection envFetch500 5 "c" "m" false).2.isOk = false ∧
      reportRows envFetch500 5 "c" "m" false = none) :=
  ⟨List.Mem.head _, rfl, rfl,
    C2_fetch_phase_errors_abort_without_report envFetch500 5 "c" "m" false _
      (List.Mem.head _) rfl rfl⟩

/-- A missing payload field makes the per-entry executor end in an
uncaught exception (the `KeyError` of `sanitize_payload`). -/
lemma processEntry_sanitize_error (env : Env) (c mf : String) (d : Bool) (e : Dict)
    (hkey : Dict.get? e "agendaFormatName" = none ∨ Dict.get? e "agendaFormatOrder" = none) :
    (processEntry env c mf d e).2.isOk = false := by
  cases hn : Dict.get? e "agendaFormatName"
  case none =>
    simp [processEntry, sanitizePayload, hn]
  case some v =>
    rcases hkey with hk | hk
    · rw [hn] at hk
      cases hk
    · simp [processEntry, sanitizePayload, hn, hk]

/-- If some entry of the list makes the per-entry executor end in an
uncaught exception, the whole loop does. -/
lemma migrateLoop_mem_error (env : Env) (c mf : String) (d : Bool) :
    ∀ es e, e ∈ es → (processEntry env c mf d e).2.isOk = false →
      (migrateLoop env c mf d es).2.isOk = false := by
  intro es
  induction es with
  | nil =>
    intro e h _
    simp at h
  | cons e2 es ih =>
    intro e h hpe
    cases hp2 : (processEntry env c mf d e2).2
    case error err =>
      simp [migrateLoop, hp2]
    case ok row =>
      simp only [migrateLoop, hp2]
      rcases List.mem_cons.mp h with h | h
      · subst h
        rw [hp2] at hpe
        simp at hpe
      · have hrest := ih e h hpe
        cases hr2 : (migrateLoop env c mf d es).2
        case error err => simp [hr2]
        case ok rows2 =>
          rw [hr2] at hrest
          simp at hrest

/-- C8: a fetched entry lacking `agendaFormatName` or `agendaFormatOrder`
makes `sanitize_payload` raise a `KeyError`; since that call sits before
the per-entry `try` block, the whole run aborts — dry run included — and
no report file is written. -/
theorem C8_missing_payload_key_aborts_run (env : Env) (fuel : Nat) (c mf : String) (d : Bool)
    (entries : List Dict) (e : Dict)
    (hfetch : (fetchEntries env fuel c mf).2 = .ok entries)
    (hmem : e ∈ entries)
    (hkey : Dict.get? e "agendaFormatName" = none ∨ Dict.get? e "agendaFormatOrder" = none) :
    (∃ k, sanitizePayload e = .error (Err.keyError k)) ∧
      (migrateCollection env fuel c mf d).2.isOk = false ∧
      reportRows env fuel c mf d = none := by
  have hok : (migrateCollection env fuel c mf d).2.isOk = false := by
    simp only [migrateCollection, hfetch]
    exact migrateLoop_mem_error env c mf d entries e hmem
      (processEntry_sanitize_error env c mf d e hkey)
  refine ⟨?_, hok, ?_⟩
  · cases hn : Dict.get? e "agendaFormatName"
    case none => exact ⟨"agendaFormatName", by simp [sanitizePayload, hn]⟩
    case some v =>
      rcases hkey with hk | hk
      · rw [hn] at hk
        cases hk
      · exact ⟨"agendaFormatOrder", by simp [sanitizePayload, hn, hk]⟩
  · unfold reportRows
    cases hcase : (migrateCollection env fuel c mf d).2
    case error err => rfl
    case ok rows =>
      rw [hcase] at hok
      simp at hok

/-- Witness for C8: one fetched entry lacking `agendaFormatOrder` aborts a
dry run before any report is written. -/
theorem C8_missing_payload_key_aborts_run_witness :
    ((fetchEntries envKeyErr 5 "c" "m").2 = .ok [entryNoOrder]) ∧
    (Dict.get? entryNoOrder "agendaFormatOrder" = none) ∧
    ((∃ k, sanitizePayload entryNoOrder = .error (Err.keyError k)) ∧
      (migrateCollection envKeyErr 5 "c" "m" true).2.isOk = false ∧
      reportRows envKeyErr 5 "c" "m" true = none) :=
  ⟨rfl, rfl,
    C8_missing_payload_key_aborts_run envKeyErr 5 "c" "m" true _ entryNoOrder rfl
      (List.Mem.head _) (Or.inr rfl)⟩

/-- Counterexample to C1 as stated: with two fetched entries and a
destination lookup that answers HTTP 500 for entry A, the run terminates
with the uncaught `HTTPError` of the lookup — no report file is written at
all (so no `failed` row for A exists), and entry B is never processed (the
request log stops at the lookup for A, contrary to the claim that the next
entry is still processed). -/
theorem C1_counterexample_lookup_500_aborts :
    raisesForStatus
        (envLookup500.respond
          (Request.getDest (destLookupUrl envLookup500 "c" "m" (.str "A")))).status = true ∧
    (migrateCollection envLookup500 5 "c" "m" false).2 =
      .error (.httpError 500 (destLookupUrl envLookup500 "c" "m" (.str "A"))) ∧
    reportRows envLookup500 5 "c" "m" false = none ∧
    (migrateCollection envLookup500 5 "c" "m" false).1 =
      [Request.getSource wPage1Url,
       Request.getSource (sourceUrl envLookup500 "c" 2),
       Request.getDest (destLookupUrl envLookup500 "c" "m" (.str "A"))] :=
  ⟨rfl, rfl, rfl, rfl⟩

/-- C1 (amended): an HTTP 500 raised inside the per-entry `try` block — on
the create (POST) call — is caught: the report receives a
`{entry, action: "failed", error: message}` row for that entry, and the
remaining entries are still processed.  (An HTTP error on the destination
lookup, which happens before the `try` block, instead aborts the run
uncaught, as proved in the C1 counterexample and in C2.) -/
theorem C1_amended_create_error_caught_and_run_continues (env : Env) (c mf : String)
    (e : Dict) (es : List Dict) (payload : Dict)
    (hsan : sanitizePayload e = .ok payload)
    (hlook : (findExistingEntry env c mf (Dict.getd e mf)).2 = .ok none)
    (hbad : raisesForStatus
        (env.respond (Request.post (destCollectionUrl env c)
          [("data", JValue.obj payload)])).status = true) :
    (migrateLoop env c mf false (e :: es)).2 =
      (match (migrateLoop env c mf false es).2 with
        | .error err => .error err
        | .ok rows =>
          .ok (⟨Dict.getd e mf, "failed",
            errMsg (.httpError
              (env.respond (Request.post (destCollectionUrl env c)
                [("data", JValue.obj payload)])).status
              (destCollectionUrl env c)), false⟩ :: rows)) := by
  have hpe : (processEntry env c mf false e).2 =
      .ok ⟨Dict.getd e mf, "failed",
        errMsg (.httpError
          (env.respond (Request.post (destCollectionUrl env c)
            [("data", JValue.obj payload)])).status
          (destCollectionUrl env c)), false⟩ := by
    simp only [processEntry, hsan, hlook, hbad]
    repeat' split
    all_goals simp_all
  simp only [migrateLoop, hpe]

/-- Witness for C1 (amended): both entries hit a 500 on their create call,
both get a `failed` row with the captured message, and the report still has
one row per entry. -/
theorem C1_amended_create_error_caught_and_run_continues_witness :
    (sanitizePayload entryA = .ok payloadA) ∧
    ((findExistingEntry envPost500 "c" "m" (Dict.getd entryA "m")).2 = .ok none) ∧
    (raisesForStatus
      (envPost500.respond (Request.post (destCollectionUrl envPost500 "c")
        [("data", JValue.obj payloadA)])).status = true) ∧
    ((migrateLoop envPost500 "c" "m" false [entryA, entryB]).2 =
      .ok [⟨.str "A", "failed", "500 Server Error for url: http://dst/api/c", false⟩,
           ⟨.str "B", "failed", "500 Server Error for url: http://dst/api/c", false⟩]) := by
  refine ⟨rfl, rfl, rfl, ?_⟩
  have h := C1_amended_create_error_caught_and_run_continues envPost500 "c" "m"
    entryA [entryB] payloadA rfl rfl rfl
  exact h.trans rfl

/-- C9: when the destination lookup answers with a non-empty result list
whose first element is a dictionary without `attributes.documentId`,
`find_existing_entry` returns the truthy `{"documentId": None}`, the update
branch is selected, and the executor issues one PUT to `{collection}/None`
(and no POST) instead of creating the entry. -/
theorem C9_missing_documentId_puts_to_None (env : Env) (c mf : String) (e : Dict)
    (payload : Dict) (d0 : Dict) (rest2 : List JValue)
    (hsan : sanitizePayload e = .ok payload)
    (hst : raisesForStatus
      (env.respond (Request.getDest (destLookupUrl env c mf (Dict.getd e mf)))).status =
        false)
    (hdata : responseData
      (env.respond (Request.getDest (destLookupUrl env c mf (Dict.getd e mf)))) =
        .arr (.obj d0 :: rest2))
    (hnodoc : getAttrDocId d0 = .ok JValue.null) :
    ((findExistingEntry env c mf (Dict.getd e mf)).2 = .ok (some [("documentId", .null)])) ∧
    (destEntryUrl env c JValue.null = env.destApi ++ "/api/" ++ c ++ "/None") ∧
    ((processEntry env c mf false e).1.filter Request.isPut =
      [Request.put (destEntryUrl env c JValue.null) [("data", JValue.obj payload)]]) ∧
    ((processEntry env c mf false e).1.filter Request.isPost = []) := by
  have h1 : (findExistingEntry env c mf (Dict.getd e mf)).2 =
      .ok (some [("documentId", JValue.null)]) := by
    simp [findExistingEntry, hst, hdata, hnodoc, JValue.truthy, JValue.index0]
  have h2 : destEntryUrl env c JValue.null = env.destApi ++ "/api/" ++ c ++ "/None" := by
    simp only [destEntryUrl, pyStr, pyRepr, String.append_assoc]
    rfl
  refine ⟨h1, h2, ?_, ?_⟩ <;>
    (simp only [processEntry, hsan, h1]
     rw [findExistingEntry_requests]
     repeat' split
     all_goals first
       | rfl
       | simp_all [JValue.truthy])

/-- Witness for C9: a Strapi-v5-shaped lookup answer (no nested
`attributes`) drives an update PUT to the literal path segment `None`. -/
theorem C9_missing_documentId_puts_to_None_witness :
    (sanitizePayload entryA = .ok payloadA) ∧
    (responseData (envNoDocId.respond
      (Request.getDest (destLookupUrl envNoDocId "c" "m" (Dict.getd entryA "m")))) =
        .arr [.obj [("id", .num 9)]]) ∧
    (getAttrDocId [("id", .num 9)] = .ok JValue.null) ∧
    (((findExistingEntry envNoDocId "c" "m" (Dict.getd entryA "m")).2 =
        .ok (some [("documentId", .null)])) ∧
      (destEntryUrl envNoDocId "c" JValue.null = envNoDocId.destApi ++ "/api/" ++ "c" ++ "/None") ∧
      ((processEntry envNoDocId "c" "m" false entryA).1.filter Request.isPut =
        [Request.put (destEntryUrl envNoDocId "c" JValue.null)
          [("data", JValue.obj payloadA)]]) ∧
      ((processEntry envNoDocId "c" "m" false entryA).1.filter Request.isPost = [])) :=
  ⟨rfl, rfl, rfl,
    C9_missing_documentId_puts_to_None envNoDocId "c" "m" entryA payloadA
      [("id", .num 9)] [] rfl rfl rfl rfl⟩

/-- A page whose records all normalize (to an entry or a skip) is processed
without an exception, whatever the accumulator. -/
lemma processPage_ok (mf : String) :
    ∀ records acc, (∀ r ∈ records, ∃ o, normalizeRecord mf r = .ok o) →
      ∃ acc2, processPage mf records acc = .ok acc2 := by
  intro records
  induction records with
  | nil =>
    intro acc _
    exact ⟨acc, rfl⟩
  | cons r rs ih =>
    intro acc hall
    obtain ⟨o, ho⟩ := hall r (List.mem_cons_self r rs)
    have hrest : ∀ x ∈ rs, ∃ o2, normalizeRecord mf x = .ok o2 :=
      fun x hx => hall x (List.mem_cons_of_mem r hx)
    cases o with
    | none =>
      obtain ⟨acc2, h2⟩ := ih acc hrest
      exact ⟨acc2, by simp only [processPage, ho]; exact h2⟩
    | some a =>
      obtain ⟨acc2, h2⟩ := ih (acc ++ [a]) hrest
      exact ⟨acc2, by simp only [processPage, ho]; exact h2⟩

/-- The pagination loop started at `page` with every page before `k`
non-raising, non-empty and processable, and page `k` non-raising but empty,
requests exactly the pages `page, page+1, …, k` in order and stops
normally. -/
lemma fetchLoop_stops_at (env : Env) (c mf : String) (k : Nat)
    (hstopStatus : raisesForStatus (pageResponse env c k).status = false)
    (hstopData : (responseData (pageResponse env c k)).truthy = false) :
    ∀ fuel page acc, page ≤ k → k < page + fuel →
    (∀ p, page ≤ p → p < k →
      raisesForStatus (pageResponse env c p).status = false ∧
      (responseData (pageResponse env c p)).truthy = true ∧
      (∃ x, (responseData (pageResponse env c p)).index0 = .ok x) ∧
      ∃ recs, (responseData (pageResponse env c p)).items = .ok recs ∧
        ∀ r ∈ recs, ∃ o, normalizeRecord mf r = .ok o) →
    (fetchLoop env c mf fuel page acc).1 =
      (List.range' page (k + 1 - page)).map
        (fun p => Request.getSource (sourceUrl env c p)) ∧
    (fetchLoop env c mf fuel page acc).2.isOk = true := by
  intro fuel
  induction fuel with
  | zero =>
    intro page acc h1 h2 _
    omega
  | succ fuel ih =>
    intro page acc hpk hfuel hgood
    by_cases hpe : page = k
    · subst hpe
      have hstep : fetchLoop env c mf (fuel + 1) page acc =
          ([Request.getSource (sourceUrl env c page)], .ok acc) := by
        simp only [pageResponse] at hstopStatus hstopData
        simp only [fetchLoop]
        simp [hstopStatus, hstopData]
      rw [hstep, show page + 1 - page = 1 from by omega]
      exact ⟨rfl, rfl⟩
    · have hlt : page < k := Nat.lt_of_le_of_ne hpk hpe
      obtain ⟨hs, ht, ⟨x0, hsam⟩, recs, hrecs, hall⟩ := hgood page le_rfl hlt
      obtain ⟨acc2, hacc2⟩ := processPage_ok mf recs acc hall
      obtain ⟨ihlog, ihok⟩ := ih (page + 1) acc2 (by omega) (by omega)
        (fun p hp1 hp2 => hgood p (by omega) hp2)
      have hstep : fetchLoop env c mf (fuel + 1) page acc =
          (Request.getSource (sourceUrl env c page) ::
              (fetchLoop env c mf fuel (page + 1) acc2).1,
            (fetchLoop env c mf fuel (page + 1) acc2).2) := by
        simp only [pageResponse] at hs ht hsam hrecs
        simp only [fetchLoop]
        simp [hs, ht, hsam, hrecs, hacc2]
      rw [hstep]
      constructor
      · rw [show k + 1 - page = (k - page) + 1 from by omega]
        simp only [List.range', List.map]
        rw [ihlog, show k + 1 - (page + 1) = k - page from by omega]
      · exact ihok

/-- C7: pagination requests pages 1, 2, … in order and stops exactly at the
first page whose data list is empty: when every page before `k` answers
without error and non-empty and page `k` answers without error and empty,
the requests issued by the fetch phase are precisely the source GETs for
pages 1 through `k`, and the loop stops normally — no page after `k` is
requested. -/
theorem C7_pagination_stops_at_first_empty_page (env : Env) (fuel : Nat) (c mf : String)
    (k : Nat)
    (hk : 1 ≤ k) (hfuel : k < 1 + fuel)
    (hgood : ∀ p, 1 ≤ p → p < k →
      raisesForStatus (pageResponse env c p).status = false ∧
      (responseData (pageResponse env c p)).truthy = true ∧
      (∃ x, (responseData (pageResponse env c p)).index0 = .ok x) ∧
      ∃ recs, (responseData (pageResponse env c p)).items = .ok recs ∧
        ∀ r ∈ recs, ∃ o, normalizeRecord mf r = .ok o)
    (hstopStatus : raisesForStatus (pageResponse env c k).status = false)
    (hstopData : (responseData (pageResponse env c k)).truthy = false) :
    (fetchEntries env fuel c mf).1 =
      (List.range' 1 k).map (fun p => Request.getSource (sourceUrl env c p)) ∧
    (fetchEntries env fuel c mf).2.isOk = true := by
  have h := fetchLoop_stops_at env c mf k hstopStatus hstopData fuel 1 [] hk hfuel hgood
  rw [show k + 1 - 1 = k from by omega] at h
  exact h

/-- Witness for C7: with records on page 1 and an empty page 2, exactly
pages 1 and 2 are requested, in order, and nothing after. -/
theorem C7_pagination_stops_at_first_empty_page_witness :
    ((responseData (pageResponse envHappy "c" 1)).truthy = true) ∧
    ((responseData (pageResponse envHappy "c" 2)).truthy = false) ∧
    ((fetchEntries envHappy 5 "c" "m").1 =
      [Request.getSource (sourceUrl envHappy "c" 1),
       Request.getSource (sourceUrl envHappy "c" 2)] ∧
      (fetchEntries envHappy 5 "c" "m").2.isOk = true) := by
  have hg : ∀ p, 1 ≤ p → p < 2 →
      raisesForStatus (pageResponse envHappy "c" p).status = false ∧
      (responseData (pageResponse envHappy "c" p)).truthy = true ∧
      (∃ x, (responseData (pageResponse envHappy "c" p)).index0 = .ok x) ∧
      ∃ recs, (responseData (pageResponse envHappy "c" p)).items = .ok recs ∧
        ∀ r ∈ recs, ∃ o, normalizeRecord "m" r = .ok o := by
    intro p h1 h2
    have hp : p = 1 := by omega
    subst hp
    refine ⟨rfl, rfl, ⟨recA, rfl⟩, [recA, recB], rfl, ?_⟩
    intro r hr
    simp only [List.mem_cons, List.not_mem_nil, or_false] at hr
    rcases hr with h | h <;> subst h
    · exact ⟨_, rfl⟩
    · exact ⟨_, rfl⟩
  have h := C7_pagination_stops_at_first_empty_page envHappy 5 "c" "m" 2
    (by omega) (by omega) hg rfl rfl
  exact ⟨rfl, rfl, h.1.trans rfl, h.2⟩

end StrapiMigrate
